import Mathlib

/-!
Verification of the request-serving core of `dav-server-rs`
(`src/handle_gethead.rs` and `src/handle_report.rs`).

The Rust handlers are shallowly embedded as pure Lean functions.
External collaborators (the filesystem, `crate::conditional`,
`PropWriter`, the XML parser) are passed in as explicit arguments /
oracles, so that each branch of the Rust source corresponds to a
branch of the Lean definitions.  `u64` values are modelled as `Nat`;
subtraction and addition are checked (`Option`-valued) exactly where
the Rust code performs unchecked `u64` arithmetic: a `none` result
models the arithmetic-overflow program error (a panic under Rust's
checked/debug profile).
-/

/-- `2 ^ 64`, the number of `u64` values; used by the checked
arithmetic that models Rust `u64` operations. -/
def U64LIM : Nat := 18446744073709551616

/-- Checked `u64` subtraction: `none` models the underflow program
error of Rust `a - b` when `b > a`. -/
def subU64 (a b : Nat) : Option Nat :=
  if b ≤ a then some (a - b) else none

/-- Checked `u64` addition: `none` models the overflow program error
of Rust `a + b` when the sum does not fit in a `u64`. -/
def addU64 (a b : Nat) : Option Nat :=
  if a + b < U64LIM then some (a + b) else none

/-- The slice of `DavMetaData` that `handle_get` reads: `is_dir()`,
`is_file()`, `len()`, `modified()` (fallible in the source, hence
`Option`), and `etag()`. -/
structure FileMeta where
  is_dir : Bool
  is_file : Bool
  len : Nat
  modified : Option Nat
  etag : String
deriving DecidableEq, Repr

/-- `typed_headers::ByteRangeSpec`: the three single-range forms of a
`Range: bytes=` header. -/
inductive ByteRangeSpec where
  | FromTo (s e : Nat)
  | AllFrom (s : Nat)
  | Last (n : Nat)
deriving DecidableEq, Repr

/-- `typed_headers::Range`: either a byte-range list or some other
(unregistered) range unit, which `handle_get` ignores (`_ => {}`). -/
inductive RangeHeader where
  | Bytes (ranges : List ByteRangeSpec)
  | Unregistered
deriving DecidableEq, Repr

/-- Result of the range-resolution block of `handle_get`
(`handle_gethead.rs` lines 49-79). -/
inductive RangeStep where
  | noRange
  | window (start count : Nat)
  | err416
  | panik
deriving DecidableEq, Repr

/-- The `(start, count)` assignments for one `ByteRangeSpec`
(`handle_gethead.rs` lines 57-65), with the `u64` subtractions and the
`+ 1` checked: `none` models the arithmetic program error. -/
def specResolve (len : Nat) : ByteRangeSpec → Option (Nat × Nat)
  | ByteRangeSpec.FromTo s e =>
      (subU64 e s).bind (fun d => (addU64 d 1).map (fun c => (s, c)))
  | ByteRangeSpec.AllFrom s =>
      (subU64 len s).map (fun c => (s, c))
  | ByteRangeSpec.Last n =>
      (subU64 len n).map (fun st => (st, n))

/-- The whole single-range resolution of `handle_get` (lines 53-77):
only a one-element range list is honoured; then the `start >= len`
satisfiability check, then the `start + count > len` clamp. -/
def resolveRange (len : Nat) (ranges : List ByteRangeSpec) : RangeStep :=
  match ranges with
  | [spec] =>
    match specResolve len spec with
    | none => RangeStep.panik
    | some (start, count) =>
      if start ≥ len then RangeStep.err416
      else
        match addU64 start count with
        | none => RangeStep.panik
        | some t =>
          if t > len then RangeStep.window start (len - start)
          else RangeStep.window start count

  | _ => RangeStep.noRange

/-- The body-transfer loop of `handle_get` (lines 124-140), with an
explicit fuel argument: each iteration consumes at least one byte of
`count`, so `fuel = count` (see `streamLoop`) always suffices.
`chunks` models the successive results of `file.read`; an exhausted
list (or an empty chunk) models a read returning 0 bytes. -/
def streamGo : Nat → Nat → List (List Nat) → List Nat
  | 0, _, _ => []
  | _ + 1, 0, _ => []
  | fuel + 1, count + 1, chunks =>
    let c := chunks.headD []
    let rest := chunks.tail
    let n1 := if c.length > count + 1 then count + 1 else c.length
    if n1 = 0 then
      let n := if count + 1 > 4096 then 4096 else count + 1
      List.replicate n 0 ++ streamGo fuel (count + 1 - n) rest
    else
      c.take n1 ++ streamGo fuel (count + 1 - n1) rest

/-- The `while count > 0` loop of `handle_get`: stream exactly `count`
bytes, substituting zero bytes (at most 4096 per iteration) whenever a
read returns no data. -/
def streamLoop (count : Nat) (chunks : List (List Nat)) : List Nat :=
  streamGo count count chunks

/-- The response assembled by `handle_get`: status, the typed headers
it inserts, and the body bytes (`none` for HEAD / no body). -/
structure GetResponse where
  status : Nat
  lastModified : Option Nat
  etag : Option (Bool × String)
  contentRange : Option (Nat × Nat × Nat)
  contentType : Option String
  contentLength : Option Nat
  acceptRanges : Bool
  body : Option (List Nat)
deriving DecidableEq, Repr

/-- Outcome of `handle_get`: delegation to `handle_dirlist`, a
filesystem error (`fserror`), an error status (`statuserror`), an
arithmetic/unwrap program error (panic), or a completed response. -/
inductive GetOutcome where
  | dirlist
  | errFs
  | errStatus (code : Nat)
  | panik
  | resp (r : GetResponse)
deriving DecidableEq, Repr

/-- Inputs of one `handle_get` invocation.  Collaborator calls are
modelled as oracle fields: `metaPath` is `fs.metadata(&path)`,
`openOk` the success of `fs.open`, `metaFile` is `file.metadata()`,
`ifrange` the raw `If-Range` header value (opaque), `ifrangeMatchO`
the external `conditional::ifrange_match`, `ifMatch` the result of
`conditional::if_match` (`some s` = fail with status `s`), `seekOk`
the success of `file.seek`, `chunks` the successive `file.read`
results, and `mimeType` the value of `path.get_mime_type_str()`. -/
structure GetArgs where
  head : Bool
  metaPath : Except Unit FileMeta
  openOk : Bool
  metaFile : Except Unit FileMeta
  ifrange : Option Nat
  ifrangeMatchO : Nat → String → Nat → Bool
  range : Option RangeHeader
  ifMatch : Option Nat
  seekOk : Bool
  chunks : List (List Nat)
  mimeType : String

/-- `handle_get` lines 93-141: the code after the conditional check.
`window = some (start, count)` corresponds to `do_range == true`.
On the 206/200 paths the body is streamed only when the method is not
HEAD (lines 114-116); a failing seek yields `Ok(())` with status 416
and no body (lines 95-98). -/
def respond (A : GetArgs) (meta : FileMeta) (window : Option (Nat × Nat)) : GetOutcome :=
  match window with
  | some (start, count) =>
    if A.seekOk = false then
      GetOutcome.resp
        { status := 416, lastModified := meta.modified,
          etag := some (false, meta.etag), contentRange := none,
          contentType := none, contentLength := none,
          acceptRanges := false, body := none }
    else
      GetOutcome.resp
        { status := 206, lastModified := meta.modified,
          etag := some (false, meta.etag),
          -- count ≥ 1 on every window produced by resolveRange, so the
          -- u64 subtraction in the Content-Range format cannot underflow.
          contentRange := some (start, start + count - 1, meta.len),
          contentType := some A.mimeType, contentLength := some count,
          acceptRanges := true,
          body := if A.head then none else some (streamLoop count A.chunks) }
  | none =>
    GetOutcome.resp
      { status := 200, lastModified := meta.modified,
        etag := some (false, meta.etag), contentRange := none,
        contentType := some A.mimeType, contentLength := some meta.len,
        acceptRanges := true,
        body := if A.head then none else some (streamLoop meta.len A.chunks) }

/-- `handle_get` lines 89-91: the generic conditional (`if_match`)
check, which runs after ETag/Last-Modified computation and before the
range/seek and body logic. -/
def afterHeaders (A : GetArgs) (meta : FileMeta) (window : Option (Nat × Nat)) : GetOutcome :=
  match A.ifMatch with
  | some st => GetOutcome.errStatus st
  | none => respond A meta window

/-- The full `handle_get` (`handle_gethead.rs` lines 19-142):
directory delegation, the regular-file check (405), the `If-Range`
check (with its `meta.modified().unwrap()`, which panics when the
filesystem reports no modification time), single-range resolution,
the 416 short-circuit, the conditional check, and the response. -/
def handle_get (A : GetArgs) : GetOutcome :=
  match A.metaPath with
  | Except.error _ => GetOutcome.errFs
  | Except.ok meta1 =>
    if meta1.is_dir then GetOutcome.dirlist
    else if A.openOk = false then GetOutcome.errFs
    else
      match A.metaFile with
      | Except.error _ => GetOutcome.errFs
      | Except.ok meta =>
        if meta.is_file = false then GetOutcome.errStatus 405
        else
          match
            (match A.ifrange with
             | none => some true
             | some r => (meta.modified).map (fun t => A.ifrangeMatchO r meta.etag t))
          with
          | none => GetOutcome.panik
          | some doRange0 =>
            let step :=
              if doRange0 then
                match A.range with
                | some (RangeHeader.Bytes ranges) => resolveRange meta.len ranges
                | _ => RangeStep.noRange
              else RangeStep.noRange
            match step with
            | RangeStep.panik => GetOutcome.panik
            | RangeStep.err416 => GetOutcome.errStatus 416
            | RangeStep.window s c => afterHeaders A meta (some (s, c))
            | RangeStep.noRange => afterHeaders A meta none

/-- `xmltree::Element`, restricted to what `handle_report` reads:
name, namespace, child elements, and text content (`get_text`). -/
inductive Element : Type where
  | mk : String → Option String → List Element → Option String → Element

/-- The element's tag name. -/
def Element.name : Element → String
  | Element.mk n _ _ _ => n

/-- The element's namespace (`t.namespace.as_deref()`). -/
def Element.ns : Element → Option String
  | Element.mk _ s _ _ => s

/-- The element's child elements (`child_elems_into_iter` /
`take_child_elems`). -/
def Element.children : Element → List Element
  | Element.mk _ _ c _ => c

/-- The element's text content (`get_text`). -/
def Element.text : Element → Option String
  | Element.mk _ _ _ t => t

/-- `davheaders::Depth`. -/
inductive Depth where
  | Zero
  | One
  | Infinity
deriving DecidableEq, Repr

/-- Inputs of one `handle_report` invocation: the `Depth` header, the
presence of the `X-Litmus` test-marker header, whether `xmldata` is
non-empty, the result of `Element::parse` on it (an oracle, consulted
only when the body is non-empty), and the success of the external
`PropWriter::new`. -/
structure ReportArgs where
  depth : Option Depth
  litmus : Bool
  bodyNonEmpty : Bool
  parse : Except Unit Element
  pwOk : Bool

/-- The data `handle_report` hands to the streamed body: the selector
mode name passed to `PropWriter::new` (the Rust `name` variable), the
requested property elements, the `href` child elements, and the
effective depth driving the per-href loop. -/
structure StreamSpec where
  mode : String
  props : List Element
  hrefs : List Element
  depth : Depth

/-- Body of the `handle_report` response. -/
inductive ReportBody where
  | empty
  | davXmlError (s : String)
  | stream (spec : StreamSpec)

/-- The response assembled by `handle_report`: status and the headers
it inserts (Cache-Control: no-cache, Pragma: no-cache, and on the 403
path a Content-Type), plus the body. -/
structure ReportResponse where
  status : Nat
  cacheControlNoCache : Bool
  pragmaNoCache : Bool
  contentType : Option String
  body : ReportBody

/-- Outcome of `handle_report`: a response, the collapsed XML parse
error (`DavError::XmlParseError`), or another propagated error
(`PropWriter::new` failure). -/
inductive ReportOutcome where
  | ok (r : ReportResponse)
  | errXml
  | errOther

/-- The full `handle_report` (`handle_report.rs` lines 19-119): the
depth gate with the litmus escape hatch (lines 33-45), body parsing
and the `addressbook-multiget` root check (lines 50-64), the property
selector (lines 66-80), the `href` target list (lines 82-89), and the
construction of the streamed body.  The depth gate of lines 33-45 is
factored out as `effDepth`: `none` means absent-or-infinity depth with
no litmus marker (the 403 path); `some d` is the effective depth. -/
def effDepth (A : ReportArgs) : Option Depth :=
  match A.depth with
  | some Depth.Infinity | none =>
    if A.litmus then some Depth.Infinity else none
  | some d => some d

/-- See `effDepth` for the depth-gate factoring. -/
def handle_report (A : ReportArgs) : ReportOutcome :=
  match effDepth A with
  | none =>
    ReportOutcome.ok
      { status := 403, cacheControlNoCache := true, pragmaNoCache := true,
        contentType := some ("application/xml; charset=utf-8"),
        body := ReportBody.davXmlError ("<D:propfind-finite-depth/>") }
  | some depth =>
    let rootRes : Except Unit (Option Element) :=
      if A.bodyNonEmpty then
        match A.parse with
        | Except.ok t =>
          if t.name == "addressbook-multiget"
              && t.ns == some ("urn:ietf:params:xml:ns:carddav")
          then Except.ok (some t)
          else Except.error ()
        | Except.error _ => Except.error ()
      else Except.ok none
    match rootRes with
    | Except.error _ => ReportOutcome.errXml
    | Except.ok root =>
      match
        (match root with
         | none => some ("allprop", ([] : List Element))
         | some elem =>
           match elem.children.find? (fun (e : Element) => e.name == "prop") with
           | some e =>
             if e.name == "prop" then some ("prop", e.children) else none
           | none => none)
      with
      | none => ReportOutcome.errXml
      | some (nm, props) =>
        let hrefs : List Element :=
          match root with
          | none => []
          | some elem => elem.children.filter (fun (e : Element) => e.name == "href")
        if A.pwOk then
          ReportOutcome.ok
            { status := 200, cacheControlNoCache := true,
              pragmaNoCache := true, contentType := none,
              body := ReportBody.stream
                { mode := nm, props := props, hrefs := hrefs, depth := depth } }
        else ReportOutcome.errOther

/-- The property-selector mode and property set chosen by a
`handle_report` run, when it produced a streamed response. -/
def reportSelection : ReportOutcome → Option (String × List Element)
  | ReportOutcome.ok r =>
    match r.body with
    | ReportBody.stream sp => some (sp.mode, sp.props)
    | _ => none
  | _ => none

/-- The combinations of `Depth` header and litmus marker that pass the
depth gate of `handle_report` (everything except absent-or-infinity
depth with no marker). -/
def depthGatePasses (A : ReportArgs) : Prop :=
  A.depth = some Depth.Zero ∨ A.depth = some Depth.One ∨ A.litmus = true

/-- Entry names as byte sequences, as `handle_dirlist` receives them
from `dirent.name()` and compares them after `from_utf8_lossy` (Rust
`String` ordering is byte-lexicographic; on valid UTF-8 this agrees
with codepoint order, so a byte-list model is exact). -/
def asciiBytes (s : String) : List Nat :=
  s.data.map Char.toNat

/-- `name.starts_with(b".")`: the hidden-entry test of line 179. -/
def startsWithDot : List Nat → Bool
  | [] => false
  | b :: _ => b == 46

/-- Lexicographic comparison of byte sequences, the `Ord` used by
Rust's `(a.name).cmp(&b.name)` on line 214. -/
def bytesCmp : List Nat → List Nat → Ordering
  | [], [] => Ordering.eq
  | [], _ :: _ => Ordering.lt
  | _ :: _, [] => Ordering.gt
  | a :: as, b :: bs =>
    if a < b then Ordering.lt
    else if b < a then Ordering.gt
    else bytesCmp as bs

/-- One raw `read_dir` entry as `handle_dirlist` consumes it: the
entry name and the outcome of the metadata resolution of lines
184-191 (`metaOk = false` models a failed metadata fetch, which makes
the listing skip the entry; `is_dir` is the resolved metadata's
directory bit). -/
structure RawEntry where
  name : List Nat
  metaOk : Bool
  is_dir : Bool
deriving DecidableEq, Repr

/-- The per-entry record `handle_dirlist` sorts and renders, reduced
to the fields its comparator reads: the display name (with the `/`
byte 47 already appended for directories, lines 193-195) and the
metadata's directory bit. -/
structure Dirent where
  name : List Nat
  is_dir : Bool
deriving DecidableEq, Repr

/-- The dirent-building loop of `handle_dirlist` (lines 177-203):
skip names starting with a hidden-file dot, skip entries whose
metadata fails, and append a slash to directory names. -/
def buildDirents (es : List RawEntry) : List Dirent :=
  es.filterMap (fun e =>
    if startsWithDot e.name then none
    else if e.metaOk then
      if e.is_dir then some { name := e.name ++ [47], is_dir := true }
      else some { name := e.name, is_dir := false }
    else none)

/-- The comparator of `dirents.sort_by` (lines 206-216): directories
first, then name comparison within a group. -/
def direntCmp (a b : Dirent) : Ordering :=
  if a.is_dir && !b.is_dir then Ordering.lt
  else if b.is_dir && !a.is_dir then Ordering.gt
  else bytesCmp a.name b.name

/-- The not-greater relation induced by the comparator: Rust's stable
`sort_by` places `a` no later than `b` exactly when the comparator
does not say `Greater`. -/
def direntLe (a b : Dirent) : Prop := direntCmp a b ≠ Ordering.gt

instance : DecidableRel direntLe := fun a b =>
  inferInstanceAs (Decidable (direntCmp a b ≠ Ordering.gt))

/-- `dirents.sort_by(...)`: a stable sort by the comparator, modelled
with Mathlib's stable insertion sort. -/
def sortDirents (l : List Dirent) : List Dirent :=
  List.insertionSort direntLe l

theorem streamGo_length :
    ∀ (fuel count : Nat) (chunks : List (List Nat)), count ≤ fuel →
      (streamGo fuel count chunks).length = count := by
  intro fuel
  induction fuel with
  | zero =>
    intro count chunks h
    have hc : count = 0 := Nat.le_zero.mp h
    subst hc
    rfl
  | succ f ih =>
    intro count chunks h
    match count with
    | 0 => rfl
    | k + 1 =>
      simp only [streamGo]
      by_cases h1 : (chunks.headD []).length > k + 1
      · rw [if_pos h1, if_neg (by omega), List.length_append, List.length_take,
          ih _ _ (by omega)]
        omega
      · rw [if_neg h1]
        by_cases h2 : (chunks.headD []).length = 0
        · rw [if_pos h2]
          by_cases h3 : k + 1 > 4096
          · rw [if_pos h3, List.length_append, List.length_replicate,
              ih _ _ (by omega)]
            omega
          · rw [if_neg h3, List.length_append, List.length_replicate,
              ih _ _ (by omega)]
            omega
        · rw [if_neg h2, List.length_append, List.length_take, ih _ _ (by omega)]
          omega

theorem streamGo_nil :
    ∀ (fuel count : Nat), count ≤ fuel →
      streamGo fuel count [] = List.replicate count 0 := by
  intro fuel
  induction fuel with
  | zero =>
    intro count h
    have hc : count = 0 := Nat.le_zero.mp h
    subst hc
    rfl
  | succ f ih =>
    intro count h
    match count with
    | 0 => rfl
    | k + 1 =>
      have hg : streamGo (f + 1) (k + 1) [] =
          List.replicate (if k + 1 > 4096 then 4096 else k + 1) 0 ++
            streamGo f (k + 1 - (if k + 1 > 4096 then 4096 else k + 1)) [] := rfl
      rw [hg]
      by_cases h3 : k + 1 > 4096
      · rw [if_pos h3, ih (k + 1 - 4096) (by omega), ← List.replicate_add]
        have he : 4096 + (k + 1 - 4096) = k + 1 := by omega
        rw [he]
      · rw [if_neg h3, ih (k + 1 - (k + 1)) (by omega), ← List.replicate_add]
        have he : k + 1 + (k + 1 - (k + 1)) = k + 1 := by omega
        rw [he]

theorem streamLoop_length (count : Nat) (chunks : List (List Nat)) :
    (streamLoop count chunks).length = count :=
  streamGo_length count count chunks (Nat.le_refl count)

theorem streamLoop_nil (count : Nat) :
    streamLoop count [] = List.replicate count 0 :=
  streamGo_nil count count (Nat.le_refl count)

theorem bytesCmp_swap :
    ∀ (a b : List Nat), bytesCmp b a = (bytesCmp a b).swap := by
  intro a
  induction a with
  | nil =>
    intro b
    cases b <;> rfl
  | cons x xs ih =>
    intro b
    cases b with
    | nil => rfl
    | cons y ys =>
      simp only [bytesCmp]
      by_cases h1 : x < y
      · rw [if_neg (show ¬ y < x by omega), if_pos h1, if_pos h1]
        rfl
      · by_cases h2 : y < x
        · rw [if_pos h2, if_neg h1, if_pos h2]
          rfl
        · rw [if_neg h2, if_neg h1, if_neg h1, if_neg h2]
          exact ih ys

theorem bytesCmp_le_trans :
    ∀ (a b c : List Nat), bytesCmp a b ≠ Ordering.gt →
      bytesCmp b c ≠ Ordering.gt → bytesCmp a c ≠ Ordering.gt := by
  intro a
  induction a with
  | nil =>
    intro b c _ _
    cases c <;> simp [bytesCmp]
  | cons x xs ih =>
    intro b c h1 h2
    cases b with
    | nil => exact absurd rfl h1
    | cons y ys =>
      cases c with
      | nil => exact absurd rfl h2
      | cons z zs =>
        simp only [bytesCmp] at h1 h2 ⊢
        by_cases hxy : x < y
        · rw [if_pos hxy] at h1
          by_cases hyz : y < z
          · rw [if_pos (show x < z by omega)]
            simp
          · rw [if_neg hyz] at h2
            by_cases hzy : z < y
            · rw [if_pos hzy] at h2
              exact absurd rfl h2
            · rw [if_pos (show x < z by omega)]
              simp
        · rw [if_neg hxy] at h1
          by_cases hyx : y < x
          · rw [if_pos hyx] at h1
            exact absurd rfl h1
          · rw [if_neg hyx] at h1
            by_cases hyz : y < z
            · rw [if_pos (show x < z by omega)]
              simp
            · rw [if_neg hyz] at h2
              by_cases hzy : z < y
              · rw [if_pos hzy] at h2
                exact absurd rfl h2
              · rw [if_neg hzy] at h2
                rw [if_neg (show ¬ x < z by omega), if_neg (show ¬ z < x by omega)]
                exact ih ys zs h1 h2

theorem direntLe_iff (a b : Dirent) :
    direntLe a b ↔
      (a.is_dir = true ∧ b.is_dir = false) ∨
        (a.is_dir = b.is_dir ∧ bytesCmp a.name b.name ≠ Ordering.gt) := by
  unfold direntLe direntCmp
  cases ha : a.is_dir <;> cases hb : b.is_dir <;> simp

theorem bytesCmp_le_total (a b : List Nat) :
    bytesCmp a b ≠ Ordering.gt ∨ bytesCmp b a ≠ Ordering.gt := by
  by_cases h : bytesCmp a b = Ordering.gt
  · right
    rw [bytesCmp_swap, h]
    simp [Ordering.swap]
  · left
    exact h

instance : IsTotal Dirent direntLe :=
  ⟨by
    intro a b
    rw [direntLe_iff, direntLe_iff]
    cases ha : a.is_dir <;> cases hb : b.is_dir <;> simp <;>
      exact bytesCmp_le_total a.name b.name⟩

instance : IsTrans Dirent direntLe :=
  ⟨by
    intro a b c h1 h2
    rw [direntLe_iff] at h1 h2 ⊢
    rcases h1 with ⟨ha1, hb1⟩ | ⟨hab, hc1⟩
    · rcases h2 with ⟨hb2, hc2⟩ | ⟨hbc, hc2⟩
      · rw [hb1] at hb2
        exact absurd hb2 (by simp)
      · left
        exact ⟨ha1, hbc ▸ hb1⟩
    · rcases h2 with ⟨hb2, hc2⟩ | ⟨hbc, hc2⟩
      · left
        exact ⟨hab.trans hb2, hc2⟩
      · right
        exact ⟨hab.trans hbc, bytesCmp_le_trans _ _ _ hc1 hc2⟩⟩

theorem respond_contentLength (A : GetArgs) (meta : FileMeta)
    (window : Option (Nat × Nat)) (r : GetResponse) (bs : List Nat)
    (h1 : respond A meta window = GetOutcome.resp r) (h2 : r.body = some bs) :
    r.contentLength = some bs.length := by
  cases window with
  | none =>
    simp only [respond] at h1
    cases h1
    simp only at h2
    cases hh : A.head with
    | true =>
      rw [hh] at h2
      simp at h2
    | false =>
      rw [hh] at h2
      simp only [if_neg Bool.false_ne_true] at h2
      cases h2
      simp [streamLoop_length]
  | some sc =>
    rcases sc with ⟨start, count⟩
    simp only [respond] at h1
    cases hs : A.seekOk with
    | false =>
      rw [hs] at h1
      simp only [if_pos rfl] at h1
      cases h1
      simp at h2
    | true =>
      rw [hs] at h1
      simp only [if_neg (show ¬ (true = false) from by decide)] at h1
      cases h1
      simp only at h2
      cases hh : A.head with
      | true =>
        rw [hh] at h2
        simp at h2
      | false =>
        rw [hh] at h2
        simp only [if_neg Bool.false_ne_true] at h2
        cases h2
        simp [streamLoop_length]

theorem afterHeaders_contentLength (A : GetArgs) (meta : FileMeta)
    (window : Option (Nat × Nat)) (r : GetResponse) (bs : List Nat)
    (h1 : afterHeaders A meta window = GetOutcome.resp r) (h2 : r.body = some bs) :
    r.contentLength = some bs.length := by
  unfold afterHeaders at h1
  cases hm : A.ifMatch with
  | some st =>
    rw [hm] at h1
    exact absurd h1 (by simp)
  | none =>
    rw [hm] at h1
    exact respond_contentLength A meta window r bs h1 h2


theorem handle_get_resp_length (A : GetArgs) (r : GetResponse) (bs : List Nat)
    (h1 : handle_get A = GetOutcome.resp r) (h2 : r.body = some bs) :
    r.contentLength = some bs.length := by
  simp only [handle_get] at h1
  repeat' split at h1
  all_goals
    first
      | exact afterHeaders_contentLength _ _ _ _ _ h1 h2
      | cases h1

/-- Claim C2: for every GET request on a regular file where a transfer
window of `count` bytes was resolved and headers committed, the streamed
body is exactly `count` (= the promised Content-Length) bytes long even
if the file reports end-of-data early: every completed `handle_get`
response that carries a body has body length equal to its
Content-Length, and a source that yields no data at all produces
exactly `count` zero-valued padding bytes; the handler returns the
completed response rather than an error. -/
theorem c2_theorem (A : GetArgs) (r : GetResponse) (bs : List Nat)
    (h1 : handle_get A = GetOutcome.resp r) (h2 : r.body = some bs) :
    r.contentLength = some bs.length ∧
      streamLoop bs.length [] = List.replicate bs.length 0 :=
  ⟨handle_get_resp_length A r bs h1 h2, streamLoop_nil bs.length⟩

/-- The file metadata used by the concrete `handle_get` witnesses:
a 5-byte regular file. -/
def metaW : FileMeta :=
  { is_dir := false, is_file := true, len := 5, modified := some 7,
    etag := ("xyz") }

/-- A baseline concrete `handle_get` invocation on `metaW`: a plain
GET with no conditional headers, whose file yields 3 bytes and then
reports end-of-data. -/
def argsW : GetArgs :=
  { head := false, metaPath := Except.ok metaW, openOk := true,
    metaFile := Except.ok metaW, ifrange := none,
    ifrangeMatchO := fun _ _ _ => false, range := none, ifMatch := none,
    seekOk := true, chunks := [[10, 20, 30]], mimeType := ("text/plain") }

/-- The response `handle_get` produces on `argsW`: 200, Content-Length
5, and a body of the 3 real bytes followed by 2 zero padding bytes. -/
def respW : GetResponse :=
  { status := 200, lastModified := some 7, etag := some (false, ("xyz")),
    contentRange := none, contentType := some ("text/plain"),
    contentLength := some 5, acceptRanges := true,
    body := some [10, 20, 30, 0, 0] }

/-- Witness for C2: the concrete truncated-file request `argsW`. -/
theorem c2_witness :
    respW.contentLength = some ([10, 20, 30, 0, 0] : List Nat).length ∧
      streamLoop ([10, 20, 30, 0, 0] : List Nat).length [] =
        List.replicate ([10, 20, 30, 0, 0] : List Nat).length 0 :=
  c2_theorem argsW respW [10, 20, 30, 0, 0] (by decide) (by decide)

/-- Claim C3 (amended): for a single-spec Range header resolved
against a file of u64 length `len`, `From-To(s,e)` with `s ≤ e < len`
yields window `(s, e-s+1)`, `Suffix-Length(n)` with `0 < n ≤ len`
yields `(len-n, n)`, and `From(s2)` with `s2 < len` yields
`(s2, len-s2)`.  (The original claim also allowed `n = 0`, where the
code instead fails with 416 — see the counterexample.) -/
theorem c3_theorem (len s e n s2 : Nat) (hlen : len < U64LIM)
    (hse : s ≤ e) (he : e < len) (hn0 : 0 < n) (hn : n ≤ len)
    (hs2 : s2 < len) :
    resolveRange len [ByteRangeSpec.FromTo s e] =
        RangeStep.window s (e - s + 1) ∧
      resolveRange len [ByteRangeSpec.Last n] =
        RangeStep.window (len - n) n ∧
      resolveRange len [ByteRangeSpec.AllFrom s2] =
        RangeStep.window s2 (len - s2) := by
  refine ⟨?_, ?_, ?_⟩
  · have h2 : e - s + 1 < U64LIM := by omega
    have h3 : ¬ s ≥ len := by omega
    have h4 : s + (e - s + 1) < U64LIM := by omega
    have h5 : ¬ s + (e - s + 1) > len := by omega
    simp [resolveRange, specResolve, subU64, addU64, hse, h2, h3, h4, h5]
  · have h1 : n ≤ len := hn
    have h3 : ¬ len - n ≥ len := by omega
    have h4 : len - n + n < U64LIM := by omega
    have h5 : ¬ len - n + n > len := by omega
    simp [resolveRange, specResolve, subU64, addU64, h1, h3, h4, h5, hlen]
  · have h1 : s2 ≤ len := by omega
    have h3 : ¬ s2 ≥ len := by omega
    have h4 : s2 + (len - s2) < U64LIM := by omega
    have h5 : ¬ s2 + (len - s2) > len := by omega
    simp [resolveRange, specResolve, subU64, addU64, h1, h3, h4, h5, hlen]

/-- Counterexample for C3 as stated: `Suffix-Length(0)` satisfies
`n ≤ total_len` but the code computes `start = len - 0 = len`, hits the
`start >= len` check, and fails with 416 instead of yielding the
window `(len, 0)` the claim promises. -/
theorem c3_counterexample :
    resolveRange 5 [ByteRangeSpec.Last 0] = RangeStep.err416 ∧
      resolveRange 5 [ByteRangeSpec.Last 0] ≠ RangeStep.window 5 0 := by
  decide

/-- Witness for C3 at a 10-byte file. -/
theorem c3_witness :
    resolveRange 10 [ByteRangeSpec.FromTo 2 5] = RangeStep.window 2 4 ∧
      resolveRange 10 [ByteRangeSpec.Last 3] = RangeStep.window 7 3 ∧
      resolveRange 10 [ByteRangeSpec.AllFrom 7] = RangeStep.window 7 3 :=
  c3_theorem 10 2 5 3 7 (by decide) (by decide) (by decide) (by decide)
    (by decide) (by decide)

/-- Claim C4: a GET on a regular nonempty file whose single range spec
resolves (without arithmetic error) to `start ≥ total_len` fails with
status 416, independently of the conditional (`if_match`) oracle, the
method, and everything downstream — the check precedes the generic
conditional evaluation, and `GetOutcome.errStatus` carries no body. -/
theorem c4_theorem (A : GetArgs) (m1 m : FileMeta) (spec : ByteRangeSpec)
    (st c : Nat)
    (h1 : A.metaPath = Except.ok m1) (h2 : m1.is_dir = false)
    (h3 : A.openOk = true) (h4 : A.metaFile = Except.ok m)
    (h5 : m.is_file = true) (h6 : 0 < m.len) (h7 : A.ifrange = none)
    (h8 : A.range = some (RangeHeader.Bytes [spec]))
    (h9 : specResolve m.len spec = some (st, c)) (h10 : st ≥ m.len) :
    handle_get A = GetOutcome.errStatus 416 := by
  simp [handle_get, h1, h2, h3, h4, h5, h7, h8, resolveRange, h9, h10]

/-- The C4 witness request: range `bytes=7-9` against the 5-byte file,
with a conditional oracle that would otherwise fail with 412 — the 416
still wins, showing the range check runs first. -/
def argsC4 : GetArgs :=
  { head := false, metaPath := Except.ok metaW, openOk := true,
    metaFile := Except.ok metaW, ifrange := none,
    ifrangeMatchO := fun _ _ _ => false,
    range := some (RangeHeader.Bytes [ByteRangeSpec.FromTo 7 9]),
    ifMatch := some 412, seekOk := true, chunks := [],
    mimeType := ("text/plain") }

/-- Witness for C4. -/
theorem c4_witness : handle_get argsC4 = GetOutcome.errStatus 416 :=
  c4_theorem argsC4 metaW metaW (ByteRangeSpec.FromTo 7 9) 7 3 rfl rfl rfl
    rfl rfl (by decide) rfl rfl (by decide) (by decide)

theorem resolveRange_not_single (ranges : List ByteRangeSpec)
    (h : ranges.length ≠ 1) (len : Nat) :
    resolveRange len ranges = RangeStep.noRange :=
  match ranges with
  | [] => rfl
  | [_] => absurd rfl h
  | _ :: _ :: _ => rfl

/-- Claim C7: a Range header with zero or two-or-more byte-range specs
produces exactly the same `handle_get` outcome (status, headers, body)
as the same request with no Range header at all. -/
theorem c7_theorem (A : GetArgs) (ranges : List ByteRangeSpec)
    (h : ranges.length ≠ 1) :
    handle_get { A with range := some (RangeHeader.Bytes ranges) } =
      handle_get { A with range := none } := by
  simp only [handle_get, afterHeaders, respond]
  simp only [resolveRange_not_single ranges h]

/-- Witness for C7: a two-spec Range header on the concrete request. -/
theorem c7_witness :
    handle_get { argsW with range := some (RangeHeader.Bytes
        [ByteRangeSpec.FromTo 0 1, ByteRangeSpec.FromTo 3 4]) } =
      handle_get { argsW with range := none } :=
  c7_theorem argsW [ByteRangeSpec.FromTo 0 1, ByteRangeSpec.FromTo 3 4]
    (by decide)

/-- Claim C6: on a regular-file GET carrying both If-Range and Range,
a non-matching If-Range makes `handle_get` ignore the Range header
entirely — the outcome equals that of the range-free request, and is
the full-body 200 response; this holds for every value of the Range
header, including unsatisfiable ones, because the If-Range check runs
before the Range header is parsed. -/
theorem c6_theorem (A : GetArgs) (v t : Nat) (m1 m : FileMeta)
    (h1 : A.metaPath = Except.ok m1) (h2 : m1.is_dir = false)
    (h3 : A.openOk = true) (h4 : A.metaFile = Except.ok m)
    (h5 : m.is_file = true) (h6 : A.ifrange = some v)
    (h7 : m.modified = some t) (h8 : A.ifrangeMatchO v m.etag t = false)
    (h9 : A.ifMatch = none) (h10 : A.head = false) :
    handle_get A = handle_get { A with range := none } ∧
      handle_get A = GetOutcome.resp
        { status := 200, lastModified := m.modified,
          etag := some (false, m.etag), contentRange := none,
          contentType := some A.mimeType, contentLength := some m.len,
          acceptRanges := true,
          body := some (streamLoop m.len A.chunks) } := by
  have hres : ∀ (X : Option RangeHeader),
      handle_get { A with range := X } = GetOutcome.resp
        { status := 200, lastModified := m.modified,
          etag := some (false, m.etag), contentRange := none,
          contentType := some A.mimeType, contentLength := some m.len,
          acceptRanges := true,
          body := some (streamLoop m.len A.chunks) } := by
    intro X
    simp [handle_get, afterHeaders, respond, h1, h2, h3, h4, h5, h6, h7,
      h8, h9, h10]
  exact ⟨(hres A.range).trans (hres none).symm, hres A.range⟩

/-- The C6 witness request: a non-matching If-Range together with an
otherwise-unsatisfiable `bytes=7-9` Range header. -/
def argsC6 : GetArgs :=
  { argsW with
    ifrange := some 3
    range := some (RangeHeader.Bytes [ByteRangeSpec.FromTo 7 9]) }

/-- Witness for C6. -/
theorem c6_witness :
    handle_get argsC6 = handle_get { argsC6 with range := none } ∧
      handle_get argsC6 = GetOutcome.resp
        { status := 200, lastModified := metaW.modified,
          etag := some (false, metaW.etag), contentRange := none,
          contentType := some ("text/plain"), contentLength := some 5,
          acceptRanges := true,
          body := some (streamLoop 5 [[10, 20, 30]]) } :=
  c6_theorem argsC6 3 7 metaW metaW rfl rfl rfl rfl rfl rfl rfl rfl rfl rfl

/-- Claim C9: whenever an If-Range header is present on a regular-file
GET/HEAD and the file metadata reports no modification time,
`handle_get` hits `meta.modified().unwrap()` and panics instead of
producing an error response. -/
theorem c9_theorem (A : GetArgs) (v : Nat) (m1 m : FileMeta)
    (h1 : A.metaPath = Except.ok m1) (h2 : m1.is_dir = false)
    (h3 : A.openOk = true) (h4 : A.metaFile = Except.ok m)
    (h5 : m.is_file = true) (h6 : A.ifrange = some v)
    (h7 : m.modified = none) :
    handle_get A = GetOutcome.panik := by
  simp [handle_get, h1, h2, h3, h4, h5, h6, h7]

/-- The metadata for the C9 witness: a regular file whose filesystem
reports no modification time. -/
def metaNoMod : FileMeta :=
  { is_dir := false, is_file := true, len := 5, modified := none,
    etag := ("xyz") }

/-- The C9 witness request: If-Range present, file without a
modification time. -/
def argsC9 : GetArgs :=
  { argsW with metaFile := Except.ok metaNoMod, ifrange := some 3 }

/-- Witness for C9. -/
theorem c9_witness : handle_get argsC9 = GetOutcome.panik :=
  c9_theorem argsC9 3 metaW metaNoMod rfl rfl rfl rfl rfl rfl rfl

/-- Claim C10: on a regular-file GET (no If-Range), `Suffix-Length(n)`
with `n > len` and `From(s)` with `s > len` reach the unguarded `u64`
subtraction (`len - n` resp. `len - s`), which underflows — the model's
arithmetic program error — before the `start >= len` check can produce
a 416; with `n ≤ len` and `s ≤ len` the subtraction is safe and the
resolution never hits the arithmetic error. -/
theorem c10_theorem (A : GetArgs) (m1 m : FileMeta) (n1 s1 n2 s2 : Nat)
    (h1 : A.metaPath = Except.ok m1) (h2 : m1.is_dir = false)
    (h3 : A.openOk = true) (h4 : A.metaFile = Except.ok m)
    (h5 : m.is_file = true) (h6 : A.ifrange = none)
    (hlen : m.len < U64LIM)
    (hn1 : m.len < n1) (hs1 : m.len < s1)
    (hn2 : n2 ≤ m.len) (hs2 : s2 ≤ m.len) :
    handle_get
        { A with range := some (RangeHeader.Bytes [ByteRangeSpec.Last n1]) } =
          GetOutcome.panik ∧
      handle_get
        { A with range := some (RangeHeader.Bytes [ByteRangeSpec.AllFrom s1]) } =
          GetOutcome.panik ∧
      resolveRange m.len [ByteRangeSpec.Last n2] ≠ RangeStep.panik ∧
      resolveRange m.len [ByteRangeSpec.AllFrom s2] ≠ RangeStep.panik := by
  refine ⟨?_, ?_, ?_, ?_⟩
  · have hx : ¬ n1 ≤ m.len := by omega
    simp [handle_get, h1, h2, h3, h4, h5, h6, resolveRange, specResolve,
      subU64, hx]
  · have hx : ¬ s1 ≤ m.len := by omega
    simp [handle_get, h1, h2, h3, h4, h5, h6, resolveRange, specResolve,
      subU64, hx]
  · simp only [resolveRange, specResolve, subU64, addU64, if_pos hn2,
      Option.map_some']
    by_cases hge : m.len - n2 ≥ m.len
    · rw [if_pos hge]
      simp
    · rw [if_neg hge, if_pos (show m.len - n2 + n2 < U64LIM by omega)]
      by_cases hgt : m.len - n2 + n2 > m.len <;> simp [hgt]
  · simp only [resolveRange, specResolve, subU64, addU64, if_pos hs2,
      Option.map_some']
    by_cases hge : s2 ≥ m.len
    · rw [if_pos hge]
      simp
    · rw [if_neg hge, if_pos (show s2 + (m.len - s2) < U64LIM by omega)]
      by_cases hgt : s2 + (m.len - s2) > m.len <;> simp [hgt]

/-- Witness for C10 on the concrete 5-byte file: suffix length 9 and
start offset 9 underflow and panic; suffix length 3 and start offset 3
do not. -/
theorem c10_witness :
    handle_get
        { argsW with range := some (RangeHeader.Bytes [ByteRangeSpec.Last 9]) } =
          GetOutcome.panik ∧
      handle_get
        { argsW with range := some (RangeHeader.Bytes [ByteRangeSpec.AllFrom 9]) } =
          GetOutcome.panik ∧
      resolveRange metaW.len [ByteRangeSpec.Last 3] ≠ RangeStep.panik ∧
      resolveRange metaW.len [ByteRangeSpec.AllFrom 3] ≠ RangeStep.panik :=
  c10_theorem argsW metaW metaW 9 9 3 3 rfl rfl rfl rfl rfl rfl
    (by decide) (by decide) (by decide) (by decide) (by decide)

/-- Claim C5: a REPORT whose Depth header is absent or "infinity" and
which carries no litmus marker yields the fixed 403 response —
status 403, Content-Type `application/xml; charset=utf-8`, body
`<D:propfind-finite-depth/>` (wrapped by `dav_xml_error`) — for every
request body and every XML-parse outcome: the body is never parsed. -/
theorem c5_theorem (A : ReportArgs)
    (h1 : A.depth = none ∨ A.depth = some Depth.Infinity)
    (h2 : A.litmus = false) :
    handle_report A = ReportOutcome.ok
      { status := 403, cacheControlNoCache := true, pragmaNoCache := true,
        contentType := some ("application/xml; charset=utf-8"),
        body := ReportBody.davXmlError ("<D:propfind-finite-depth/>") } := by
  rcases h1 with h1 | h1 <;> simp [handle_report, effDepth, h1, h2]

/-- The C5 witness request: no Depth header, no litmus marker, a
non-empty body that would not even parse. -/
def argsC5 : ReportArgs :=
  { depth := none, litmus := false, bodyNonEmpty := true,
    parse := Except.error (), pwOk := true }

/-- Witness for C5. -/
theorem c5_witness :
    handle_report argsC5 = ReportOutcome.ok
      { status := 403, cacheControlNoCache := true, pragmaNoCache := true,
        contentType := some ("application/xml; charset=utf-8"),
        body := ReportBody.davXmlError ("<D:propfind-finite-depth/>") } :=
  c5_theorem argsC5 (Or.inl rfl) rfl

theorem effDepth_isSome (A : ReportArgs) (h : depthGatePasses A) :
    ∃ d, effDepth A = some d := by
  rcases h with h | h | h
  · exact ⟨Depth.Zero, by simp [effDepth, h]⟩
  · exact ⟨Depth.One, by simp [effDepth, h]⟩
  · cases hd : A.depth with
    | none => exact ⟨Depth.Infinity, by simp [effDepth, hd, h]⟩
    | some d =>
      cases d with
      | Zero => exact ⟨Depth.Zero, by simp [effDepth, hd]⟩
      | One => exact ⟨Depth.One, by simp [effDepth, hd]⟩
      | Infinity => exact ⟨Depth.Infinity, by simp [effDepth, hd, h]⟩

/-- An accepted `addressbook-multiget` root element with no `prop`
child (its only child is an `href` element). -/
def rootNoProp : Element :=
  Element.mk ("addressbook-multiget")
    (some ("urn:ietf:params:xml:ns:carddav"))
    [Element.mk ("href") none [] (some ("/a.vcf"))] none

/-- The request of the C1 counterexample: Depth 0, a non-empty body
parsing to `rootNoProp`. -/
def argsC1cex : ReportArgs :=
  { depth := some Depth.Zero, litmus := false, bodyNonEmpty := true,
    parse := Except.ok rootNoProp, pwOk := true }

/-- Counterexample for C1 as stated: on an accepted
`addressbook-multiget` root with no `prop` child, the claim promises
mode "all properties" with an empty set, but `handle_report` returns
an XML parse error and selects nothing. -/
theorem c1_counterexample :
    handle_report argsC1cex = ReportOutcome.errXml ∧
      reportSelection (handle_report argsC1cex) ≠ some (("allprop"), []) := by
  refine ⟨rfl, ?_⟩
  rw [show handle_report argsC1cex = ReportOutcome.errXml from rfl]
  simp [reportSelection]

/-- Claim C1 (amended): for a REPORT past the depth gate whose
`PropWriter` construction succeeds: a non-empty body parsed to an
accepted `addressbook-multiget` root selects mode "prop" with exactly
the `prop` child's elements when a `prop` child exists, and fails with
an XML parse error when no `prop` child exists (where the original
claim promised "all properties"); an empty body selects mode
"allprop" with an empty property set. -/
theorem c1_theorem (A B C : ReportArgs) (rootA rootB p : Element)
    (hgA : depthGatePasses A) (hgB : depthGatePasses B)
    (hgC : depthGatePasses C)
    (hpwA : A.pwOk = true) (hpwC : C.pwOk = true)
    (hneA : A.bodyNonEmpty = true) (hpA : A.parse = Except.ok rootA)
    (hnameA : rootA.name = ("addressbook-multiget"))
    (hnsA : rootA.ns = some ("urn:ietf:params:xml:ns:carddav"))
    (hfindA : rootA.children.find?
      (fun (e : Element) => e.name == ("prop")) = some p)
    (hneB : B.bodyNonEmpty = true) (hpB : B.parse = Except.ok rootB)
    (hnameB : rootB.name = ("addressbook-multiget"))
    (hnsB : rootB.ns = some ("urn:ietf:params:xml:ns:carddav"))
    (hfindB : rootB.children.find?
      (fun (e : Element) => e.name == ("prop")) = none)
    (hneC : C.bodyNonEmpty = false) :
    reportSelection (handle_report A) = some (("prop"), p.children) ∧
      handle_report B = ReportOutcome.errXml ∧
      reportSelection (handle_report C) = some (("allprop"), []) := by
  refine ⟨?_, ?_, ?_⟩
  · obtain ⟨dA, hdA⟩ := effDepth_isSome A hgA
    have hp0 := List.find?_some hfindA
    have hp : (p.name == ("prop")) = true := hp0
    simp [handle_report, hdA, hneA, hpA, hnameA, hnsA, hfindA, hp, hpwA,
      reportSelection]
  · obtain ⟨dB, hdB⟩ := effDepth_isSome B hgB
    simp [handle_report, hdB, hneB, hpB, hnameB, hnsB, hfindB]
  · obtain ⟨dC, hdC⟩ := effDepth_isSome C hgC
    simp [handle_report, hdC, hneC, hpwC, reportSelection]

/-- A `prop` element holding one requested property element. -/
def propElem : Element :=
  Element.mk ("prop") none [Element.mk ("getetag") none [] none] none

/-- An accepted `addressbook-multiget` root with a `prop` child and an
`href` child. -/
def rootWithProp : Element :=
  Element.mk ("addressbook-multiget")
    (some ("urn:ietf:params:xml:ns:carddav"))
    [propElem, Element.mk ("href") none [] (some ("/a.vcf"))] none

/-- C1 witness request with a `prop` child. -/
def argsC1a : ReportArgs :=
  { depth := some Depth.Zero, litmus := false, bodyNonEmpty := true,
    parse := Except.ok rootWithProp, pwOk := true }

/-- C1 witness request with an empty body. -/
def argsC1c : ReportArgs :=
  { depth := some Depth.Zero, litmus := false, bodyNonEmpty := false,
    parse := Except.error (), pwOk := true }

/-- Witness for C1 (amended), reusing `argsC1cex` for the
no-`prop`-child component. -/
theorem c1_witness :
    reportSelection (handle_report argsC1a) =
        some (("prop"), [Element.mk ("getetag") none [] none]) ∧
      handle_report argsC1cex = ReportOutcome.errXml ∧
      reportSelection (handle_report argsC1c) = some (("allprop"), []) :=
  c1_theorem argsC1a argsC1cex argsC1c rootWithProp rootNoProp propElem
    (Or.inl rfl) (Or.inl rfl) (Or.inl rfl) rfl rfl rfl rfl rfl rfl rfl
    rfl rfl rfl rfl rfl rfl

/-- Claim C8: every rendered directory listing is sorted with all
directories before all non-directories and, within each of the two
groups, in lexicographic byte order of display name; on the concrete
listing `{a.txt(file), zdir/(dir), b.txt(file), adir/(dir)}` the
rendered order is `adir/, zdir/, a.txt, b.txt`. -/
theorem c8_theorem (raw : List RawEntry) :
    (sortDirents (buildDirents raw)).Pairwise
      (fun a b => (a.is_dir = true ∧ b.is_dir = false) ∨
        (a.is_dir = b.is_dir ∧ bytesCmp a.name b.name ≠ Ordering.gt)) ∧
      sortDirents (buildDirents
        [ { name := asciiBytes ("a.txt"), metaOk := true, is_dir := false },
          { name := asciiBytes ("zdir"), metaOk := true, is_dir := true },
          { name := asciiBytes ("b.txt"), metaOk := true, is_dir := false },
          { name := asciiBytes ("adir"), metaOk := true, is_dir := true } ]) =
        [ { name := asciiBytes ("adir/"), is_dir := true },
          { name := asciiBytes ("zdir/"), is_dir := true },
          { name := asciiBytes ("a.txt"), is_dir := false },
          { name := asciiBytes ("b.txt"), is_dir := false } ] := by
  constructor
  · have hs := List.sorted_insertionSort direntLe (buildDirents raw)
    exact List.Pairwise.imp (fun hab => (direntLe_iff _ _).mp hab) hs
  · decide
